import Mathlib

/-!
Verification development for the hamro-patro-scrapper calendar acquisition
pipeline.  The definitions below are shallow embeddings of the repository's
TypeScript sources: the validation rule engine (`dist/utils/validation.js`),
the rate limiter (`utils/rate-limiter.ts`), the orchestrator
(`dist/scraper.js`) and the JSON export/convert key round trip.

Modelling conventions:
* JavaScript strings are Lean `String`s; a missing/empty string field is
  modelled as `""` (the code only tests those fields for truthiness, where
  both `undefined` and `""` are falsy).
* A value that may fail a `typeof x === "boolean"` check is an
  `Option Bool` (`none` = not a boolean).
* A value that may fail an `Array.isArray` check is an `Option (List _)`
  (`none` = not an array).
* JavaScript numbers that hold integers are `Int`/`Nat` with exact
  arithmetic.
* `parseInt(s, 10)` is `parseIntJS : String → Option Int` (`none` = `NaN`).
-/

/-- Result record of every validator: `{isValid, errors, warnings}`. -/
structure ValidationResult where
  isValid : Bool
  errors : List String
  warnings : List String
  deriving Repr, DecidableEq

/-- A raw scraped day record (`CalendarDay` with dynamic-typing slack for
`isHoliday`, which the validator checks with `typeof`). -/
structure RawDay where
  isHoliday : Option Bool
  tithi : Option String
  event : Option String
  day : String
  dayInEn : String
  en : String
  deriving Repr, DecidableEq

/-- A raw month record; `days = none` models a `days` value that is not an
array (the validator's `Array.isArray` check). -/
structure RawMonth where
  month : Int
  days : Option (List RawDay)
  deriving Repr, DecidableEq

/-- Decimal value accumulation used by `parseIntJS` over the leading digit
run, exactly as `parseInt` interprets base-10 digits. -/
def digitsToNat (l : List Char) : Nat :=
  l.foldl (fun acc c => 10 * acc + (c.toNat - 48)) 0

/-- The whitespace characters `parseInt` skips (the ones relevant here). -/
def jsWhitespace (c : Char) : Bool :=
  c = ' ' || c = '\t' || c = '\n' || c = '\r'

/-- Model of JavaScript `parseInt(s, 10)`: skip leading whitespace, read an
optional sign and then the longest leading run of decimal digits; `none`
models the `NaN` result when no digit is found. -/
def parseIntJS (s : String) : Option Int :=
  match s.data.dropWhile jsWhitespace with
  | '-' :: rest =>
      let ds := rest.takeWhile Char.isDigit
      if ds.isEmpty then none else some (-(digitsToNat ds : Int))
  | '+' :: rest =>
      let ds := rest.takeWhile Char.isDigit
      if ds.isEmpty then none else some (digitsToNat ds)
  | cs =>
      let ds := cs.takeWhile Char.isDigit
      if ds.isEmpty then none else some (digitsToNat ds)

/-- The fixed 10-entry Nepali-digit table of `convertNepaliToEnglish`
(`nepaliToEnglishMap` in `dist/utils/validation.js`). -/
def nepaliToEnglishChar (c : Char) : Option Char :=
  if c = '०' then some '0'
  else if c = '१' then some '1'
  else if c = '२' then some '2'
  else if c = '३' then some '3'
  else if c = '४' then some '4'
  else if c = '५' then some '5'
  else if c = '६' then some '6'
  else if c = '७' then some '7'
  else if c = '८' then some '8'
  else if c = '९' then some '9'
  else none

/-- `convertNepaliToEnglish`: map each character through the table, leaving
unmapped characters unchanged (`nepaliToEnglishMap[char] || char`). -/
def convertNepaliToEnglish (s : String) : String :=
  String.mk (s.data.map (fun c => (nepaliToEnglishChar c).getD c))

/-- The `/^\d{1,2}$/` test applied to the `en` field. -/
def enFormatOk (s : String) : Bool :=
  (decide (1 ≤ s.length) && decide (s.length ≤ 2)) && s.data.all Char.isDigit

/-- The day-number-consistency warning message of `validateCalendarDay`. -/
def mismatchMsg (idx : Nat) (nd de : String) : String :=
  s!"Day {idx}: Nepali day \x27" ++ nd ++ "\x27 doesn\x27t match English day \x27"
    ++ de ++ "\x27"

/-- The out-of-range / unparsable day-number error message of
`validateCalendarDay`. -/
def invalidDayNumMsg (idx : Nat) (de : String) : String :=
  s!"Day {idx}: Invalid day number \x27" ++ de ++ "\x27"

/-- Whether `parseInt(s, 10)` yields an integer in `[1, 32]` (the day-number
range check of `validateCalendarDay`). -/
def dayInEnParsesInRange (s : String) : Bool :=
  match parseIntJS s with
  | none => false
  | some n => decide (1 ≤ n ∧ n ≤ 32)

/-- `validateCalendarDay(day, dayIndex)` from `dist/utils/validation.js`. -/
def validateCalendarDay (day : RawDay) (dayIndex : Nat) : ValidationResult :=
  let idx : Nat := dayIndex + 1
  let se := day.en
  let missingDay :=
    if day.day = "" then [s!"Day {idx}: Missing \x27day\x27 field"] else []
  let missingDayInEn :=
    if day.dayInEn = "" then [s!"Day {idx}: Missing \x27dayInEn\x27 field"] else []
  let missingEn :=
    if day.en = "" then [s!"Day {idx}: Missing \x27en\x27 field"] else []
  let mismatchWarn :=
    if day.day ≠ "" ∧ day.dayInEn ≠ "" ∧ convertNepaliToEnglish day.day ≠ day.dayInEn then
      [mismatchMsg idx day.day day.dayInEn]
    else []
  let enWarn :=
    if day.en ≠ "" ∧ enFormatOk day.en = false then
      [s!"Day {idx}: English date \x27{se}\x27 should be a number"]
    else []
  let invalidNumErr :=
    if day.dayInEn ≠ "" then
      match parseIntJS day.dayInEn with
      | none => [invalidDayNumMsg idx day.dayInEn]
      | some n =>
          if n < 1 ∨ 32 < n then [invalidDayNumMsg idx day.dayInEn] else []
    else []
  let holidayErr :=
    if day.isHoliday = none then [s!"Day {idx}: \x27isHoliday\x27 must be a boolean"] else []
  let errors := missingDay ++ missingDayInEn ++ missingEn ++ invalidNumErr ++ holidayErr
  let warnings := mismatchWarn ++ enWarn
  ⟨errors.length == 0, errors, warnings⟩

/-- One sequence-check warning message. -/
def seqMsg (mi : Int) (i : Nat) : String :=
  s!"Month {mi}: Non-sequential day numbers at position {i}"

/-- The body of the sequential-day loop of `validateCalendarMonth`: position
`i` compares `prev` (the value at `i - 1`) with the head of the remaining
list, warning unless consecutive or a `>28 → 1` rollover. -/
def seqWarningsAux (mi : Int) : Nat → Int → List Int → List String
  | _, _, [] => []
  | i, prev, c :: rest =>
      (if c ≠ prev + 1 ∧ ¬(28 < prev ∧ c = 1) then [seqMsg mi i] else [])
        ++ seqWarningsAux mi (i + 1) c rest

/-- The sequential-day check (runs only when more than one parsed day
number is present, mirroring the `dayNumbers.length > 1` guard). -/
def seqWarnings (mi : Int) : List Int → List String
  | [] => []
  | [_] => []
  | p :: c :: rest => seqWarningsAux mi 1 p (c :: rest)

/-- The parsed day numbers used by the sequential check:
`days.map(d => parseInt(d.dayInEn, 10)).filter(n => !isNaN(n))`. -/
def dayNumbersOf (days : List RawDay) : List Int :=
  days.filterMap (fun d => parseIntJS d.dayInEn)

/-- The warnings `validateCalendarMonth` pushes before it runs the
sequential-day loop: the day-count warning followed by the per-day warnings
prefixed with the month position. -/
def monthDayWarnings (mi : Int) (days : List RawDay) : List String :=
  let n := days.length
  (if days.length < 28 ∨ 32 < days.length then
    [s!"Month {mi}: Unusual number of days ({n})"]
  else [])
    ++ (days.enum).flatMap (fun p =>
      ((validateCalendarDay p.2 p.1).warnings).map (fun w => s!"Month {mi}, " ++ w))

/-- `validateCalendarMonth(month, monthIndex)` from
`dist/utils/validation.js`. -/
def validateCalendarMonth (m : RawMonth) (monthIndex : Int) : ValidationResult :=
  let mi := monthIndex + 1
  let mm := m.month
  let monthNumErr :=
    if m.month = 0 ∨ m.month < 1 ∨ 12 < m.month then
      [s!"Month {mi}: Invalid month number \x27{mm}\x27"]
    else []
  match m.days with
  | none =>
      ⟨false, monthNumErr ++ [s!"Month {mi}: \x27days\x27 must be an array"], []⟩
  | some days =>
      let dayErrs := (days.enum).flatMap (fun p =>
        ((validateCalendarDay p.2 p.1).errors).map (fun err => s!"Month {mi}, " ++ err))
      let errors := monthNumErr ++ dayErrs
      let warnings := monthDayWarnings mi days ++ seqWarnings mi (dayNumbersOf days)
      ⟨errors.length == 0, errors, warnings⟩

/-- The month-count error message of `validateCalendarYear`. -/
def yearLenMsg (yearNumber : Int) (n : Nat) : String :=
  s!"Year {yearNumber}: Must have exactly 12 months, found {n}"

/-- The positional month-number mismatch error message of
`validateCalendarYear`. -/
def yearMonthNumMsg (yearNumber : Int) (i : Nat) (mm : Int) : String :=
  s!"Year {yearNumber}: Month at index {i} has incorrect month number {mm}"

/-- `validateCalendarYear(year, yearNumber)`; `year = none` models a value
that is not an array. -/
def validateCalendarYear (year : Option (List RawMonth)) (yearNumber : Int) :
    ValidationResult :=
  match year with
  | none => ⟨false, [s!"Year {yearNumber}: Must be an array of months"], []⟩
  | some months =>
      let lenErr :=
        if months.length ≠ 12 then [yearLenMsg yearNumber months.length] else []
      let monthErrs := (months.enum).flatMap (fun p =>
        ((validateCalendarMonth p.2 (p.1 : Int)).errors).map
          (fun e => s!"Year {yearNumber}, " ++ e))
      let monthWarns := (months.enum).flatMap (fun p =>
        ((validateCalendarMonth p.2 (p.1 : Int)).warnings).map
          (fun w => s!"Year {yearNumber}, " ++ w))
      let seqErrs := (months.enum).flatMap (fun p =>
        if p.2.month ≠ (p.1 : Int) + 1 then
          [yearMonthNumMsg yearNumber p.1 p.2.month]
        else [])
      let errors := lenErr ++ monthErrs ++ seqErrs
      ⟨errors.length == 0, errors, monthWarns⟩

/-- `validateScrapedData(data)`; `data = none` models a value that is not an
object, and an entry's `none` value models one that is not an array.  The
source pushes each entry's errors and warnings as it walks
`Object.entries`, which yields exactly these two concatenations. -/
def validateScrapedData (data : Option (List (String × Option (List RawMonth)))) :
    ValidationResult :=
  match data with
  | none => ⟨false, ["Data must be an object"], []⟩
  | some entries =>
      let errors := entries.flatMap (fun p =>
        match parseIntJS p.1 with
        | none => let k := p.1; [s!"Invalid year key: \x27{k}\x27"]
        | some yn =>
            match p.2 with
            | none => [s!"Year {yn}: Data must be an array"]
            | some ms => (validateCalendarYear (some ms) yn).errors)
      let warnings := entries.flatMap (fun p =>
        match parseIntJS p.1 with
        | none => []
        | some yn =>
            match p.2 with
            | none => []
            | some ms => (validateCalendarYear (some ms) yn).warnings)
      ⟨errors.length == 0, errors, warnings⟩

/-- `RateLimiterConfig` from `types.ts`. -/
structure RateLimiterConfig where
  minDelay : Int
  maxDelay : Int
  useExponentialBackoff : Bool
  deriving Repr, DecidableEq

/-- The two private fields of `RateLimiter`, both initially zero. -/
structure RLState where
  lastRequestTime : Int
  consecutiveErrors : Nat
  deriving Repr, DecidableEq

/-- A freshly constructed `RateLimiter` (`lastRequestTime = 0`,
`consecutiveErrors = 0`). -/
def RLState.initial : RLState := ⟨0, 0⟩

/-- `createDefaultRateLimiterConfig()` from `utils/rate-limiter.ts`. -/
def createDefaultRateLimiterConfig : RateLimiterConfig :=
  ⟨1000, 30000, true⟩

/-- `RateLimiter.getCurrentDelay()`: the method body only reads the
configuration and state, so it embeds as a pure function. -/
def getCurrentDelay (cfg : RateLimiterConfig) (s : RLState) : Int :=
  if cfg.useExponentialBackoff = true ∧ 0 < s.consecutiveErrors then
    min (cfg.minDelay * 2 ^ s.consecutiveErrors) cfg.maxDelay
  else
    cfg.minDelay

/-- `RateLimiter.recordSuccess()`. -/
def recordSuccess (s : RLState) : RLState :=
  { s with consecutiveErrors := 0 }

/-- `RateLimiter.recordError()`. -/
def recordError (s : RLState) : RLState :=
  { s with consecutiveErrors := s.consecutiveErrors + 1 }

/-- `RateLimiter.reset()`. -/
def rlReset (_ : RLState) : RLState := ⟨0, 0⟩

/-- `RateLimiter.waitForNextRequest()`: `now` is the `Date.now()` read on
entry and `now2` the one stored after the sleep.  Returns the imposed wait
(`remainingDelay`) and the updated state. -/
def waitForNextRequest (cfg : RateLimiterConfig) (now now2 : Int) (s : RLState) :
    Int × RLState :=
  let timeSinceLastRequest := now - s.lastRequestTime
  let delay :=
    if cfg.useExponentialBackoff = true ∧ 0 < s.consecutiveErrors then
      min (cfg.minDelay * 2 ^ s.consecutiveErrors) cfg.maxDelay
    else
      cfg.minDelay
  let remainingDelay := max 0 (delay - timeSinceLastRequest)
  (remainingDelay, { s with lastRequestTime := now2 })

/-- `ScraperErrorType` from `types.ts`. -/
inductive ScraperErrorType where
  | NETWORK_ERROR
  | PARSING_ERROR
  | VALIDATION_ERROR
  | FILE_SYSTEM_ERROR
  | TIMEOUT_ERROR
  deriving Repr, DecidableEq

/-- `ScraperError`: a kind tag plus a human-readable message (the optional
wrapped cause carries no behavior and is omitted). -/
structure ScraperError where
  etype : ScraperErrorType
  message : String
  deriving Repr, DecidableEq

/-- `ScraperConfig` from `types.ts`. -/
structure ScraperConfig where
  years : List Int
  months : List Int
  requestDelay : Int
  maxRetries : Int
  timeout : Int
  saveIndividualYears : Bool
  deriving Repr, DecidableEq

/-- `createDefaultScraperConfig()` from `dist/scraper.js`. -/
def createDefaultScraperConfig : ScraperConfig :=
  ⟨[2076], (List.range 12).map (fun i => (i : Int) + 1), 1000, 3, 30000, true⟩

/-- The progress record passed to the `scrape` callback. -/
structure ProgressInfo where
  currentYear : Int
  currentMonth : Int
  totalYears : Nat
  totalMonths : Nat
  completedYears : Nat
  completedMonths : Nat
  deriving Repr, DecidableEq

/-- Outcome of one `page.goto` + `page.evaluate` round for a unit, as seen
by `scrapeMonth`'s `try` block: a day-record list, an already-classified
`ScraperError`, a thrown `Error` with a message, or a thrown non-`Error`
value. -/
inductive FetchResult where
  | ok (days : List RawDay)
  | errScraper (e : ScraperError)
  | errJs (message : String)
  | errOther
  deriving Repr, DecidableEq

/-- Substring test on character lists (helper for `hasSubstr`). -/
def charsPrefix : List Char → List Char → Bool
  | [], _ => true
  | _ :: _, [] => false
  | p :: ps, c :: cs => p = c && charsPrefix ps cs

/-- Model of JavaScript `message.includes(pat)`. -/
def hasSubstr (s pat : String) : Bool :=
  let rec go : List Char → Bool
    | [] => charsPrefix pat.data []
    | c :: cs => charsPrefix pat.data (c :: cs) || go cs
  go s.data

/-- The url built by `scrapeMonth`. -/
def scrapeUrl (year month : Int) : String :=
  s!"https://www.hamropatro.com/calendar/{year}/{month}/"

/-- `HamroPatroScraper.scrapeMonth(year, month)`.  The `try` block fetches
the unit, validates it (`validateCalendarMonth(monthData, month - 1)`) and
throws a `VALIDATION_ERROR` on an invalid month; the `catch` block passes
`ScraperError`s through unchanged, reclassifies an `Error` whose message
contains `"timeout"` as `TIMEOUT_ERROR`, and everything else as
`NETWORK_ERROR`. -/
def scrapeMonth (page : Bool) (fetch : Int → Int → FetchResult) (year month : Int) :
    Except ScraperError RawMonth :=
  if page = false then
    .error ⟨.NETWORK_ERROR, "Page not available"⟩
  else
    match fetch year month with
    | .ok days =>
        let monthData : RawMonth := ⟨month, some days⟩
        let validation := validateCalendarMonth monthData (month - 1)
        if validation.isValid = false then
          .error ⟨.VALIDATION_ERROR,
            s!"Validation failed for {year}/{month}: "
              ++ String.intercalate ", " validation.errors⟩
        else
          .ok monthData
    | .errScraper e => .error e
    | .errJs msg =>
        if hasSubstr msg "timeout" then
          .error ⟨.TIMEOUT_ERROR, "Timeout while scraping " ++ scrapeUrl year month⟩
        else
          .error ⟨.NETWORK_ERROR, "Failed to scrape " ++ scrapeUrl year month⟩
    | .errOther =>
        .error ⟨.NETWORK_ERROR, "Failed to scrape " ++ scrapeUrl year month⟩

/-- Observable events of one `scrape` run, in program order: a progress
callback invocation, a network dispatch for a unit, the rate-limiter
bookkeeping calls, and a `waitForNextRequest` call. -/
inductive Ev where
  | progress (p : ProgressInfo)
  | fetch (year month : Int)
  | recSuccess
  | recError
  | wait
  deriving Repr, DecidableEq

/-- Whether an event is a network dispatch. -/
def Ev.isFetch : Ev → Bool
  | .fetch _ _ => true
  | _ => false

/-- `data[year] = v` on the object modelled as an insertion-ordered
association list: overwrite in place when the key exists. -/
def setKey : List (Int × List RawMonth) → Int → List RawMonth →
    List (Int × List RawMonth)
  | [], y, v => [(y, v)]
  | (k, w) :: rest, y, v =>
      if k = y then (k, v) :: rest else (k, w) :: setKey rest y v

/-- `data[year].push(m)` (the key is always present when the orchestrator
pushes). -/
def pushMonth : List (Int × List RawMonth) → Int → RawMonth →
    List (Int × List RawMonth)
  | [], _, _ => []
  | (k, w) :: rest, y, m =>
      if k = y then (k, w ++ [m]) :: rest else (k, w) :: pushMonth rest y m

/-- `data[year]` lookup. -/
def lookupYear : List (Int × List RawMonth) → Int → Option (List RawMonth)
  | [], _ => none
  | (k, w) :: rest, y => if k = y then some w else lookupYear rest y

/-- Mutable state threaded through the `scrape` loops: the accumulated
dataset, the rate limiter and the clock position (`tick` indexes the
`Date.now()` stream consumed by waits). -/
structure LoopState where
  data : List (Int × List RawMonth)
  rl : RLState
  tick : Nat
  deriving Repr

/-- The inner month loop of `HamroPatroScraper.scrape`: per unit it fires
the progress callback (when supplied), dispatches the fetch, and either
pushes the month, records success and waits, or records the error and
aborts with it.  Returns the final state, the events of this loop in
program order, and the aborting error if any. -/
def monthsLoop (fetch : Int → Int → FetchResult) (cb : Bool) (clock : Nat → Int)
    (totY totM : Nat) (yi : Nat) (year : Int) :
    List Int → Nat → LoopState → LoopState × List Ev × Option ScraperError
  | [], _, st => (st, [], none)
  | month :: rest, mi, st =>
      let evs1 := (if cb then [Ev.progress ⟨year, month, totY, totM, yi, mi⟩] else [])
        ++ [Ev.fetch year month]
      match scrapeMonth true fetch year month with
      | .ok monthData =>
          let st3 : LoopState :=
            { data := pushMonth st.data year monthData,
              rl := { recordSuccess st.rl with lastRequestTime := clock st.tick },
              tick := st.tick + 1 }
          let r := monthsLoop fetch cb clock totY totM yi year rest (mi + 1) st3
          (r.1, evs1 ++ [Ev.recSuccess, Ev.wait] ++ r.2.1, r.2.2)
      | .error e =>
          ({ st with rl := recordError st.rl }, evs1 ++ [Ev.recError], some e)

/-- The outer year loop of `HamroPatroScraper.scrape`: `data[year] = []`
then the month loop; the first failing unit aborts the run. -/
def yearsLoop (fetch : Int → Int → FetchResult) (cb : Bool) (clock : Nat → Int)
    (totY totM : Nat) (months : List Int) :
    List Int → Nat → LoopState → LoopState × List Ev × Option ScraperError
  | [], _, st => (st, [], none)
  | year :: rest, yi, st =>
      let st0 := { st with data := setKey st.data year [] }
      let r := monthsLoop fetch cb clock totY totM yi year months 0 st0
      match r.2.2 with
      | none =>
          let r2 := yearsLoop fetch cb clock totY totM months rest (yi + 1) r.1
          (r2.1, r.2.1 ++ r2.2.1, r2.2.2)
      | some e => (r.1, r.2.1, some e)

/-- Result of one `scrape` call: the resolved dataset or the raised error,
the event log, and the final rate-limiter state. -/
structure ScrapeOut where
  result : Except ScraperError (List (Int × List RawMonth))
  events : List Ev
  rl : RLState
  deriving Repr

/-- `HamroPatroScraper.scrape(progressCallback?)`.  `page` is whether the
page handle is set, `cb` whether a progress callback was supplied, `clock`
the `Date.now()` stream consumed by the waits, `rl0` the rate limiter's
state on entry.  (The `catch` branch of `scrape` that wraps
non-`ScraperError` values in a `PARSING_ERROR` is unreachable:
`scrapeMonth` only throws `ScraperError`s.) -/
def scrape (page : Bool) (cfg : ScraperConfig) (fetch : Int → Int → FetchResult)
    (cb : Bool) (clock : Nat → Int) (rl0 : RLState) : ScrapeOut :=
  if page = false then
    ⟨.error ⟨.NETWORK_ERROR, "Scraper not initialized. Call initialize() first."⟩,
      [], rl0⟩
  else
    let r := yearsLoop fetch cb clock cfg.years.length cfg.months.length cfg.months
      cfg.years 0 ⟨[], rl0, 0⟩
    match r.2.2 with
    | none => ⟨.ok r.1.data, r.2.1, r.1.rl⟩
    | some e => ⟨.error e, r.2.1, r.1.rl⟩

/-- `HamroPatroScraper.close()` on the `(browser, page)` handle pair: clears
both handles when a browser is present, otherwise does nothing. -/
def scraperClose (handles : Bool × Bool) : Bool × Bool :=
  if handles.1 = true then (false, false) else handles

/-- The progress records carried by an event log, in order. -/
def progressOf (evs : List Ev) : List ProgressInfo :=
  evs.filterMap (fun e => match e with | .progress p => some p | _ => none)

/-- The character for a decimal digit value. -/
def digitChar48 (n : Nat) : Char := Char.ofNat (48 + n)

/-- Decimal digit characters of a natural number, most significant first
(fuel-based so the kernel can evaluate it; the fuel `n + 1` always
suffices). -/
def natDecimalCharsAux : Nat → Nat → List Char
  | 0, _ => []
  | fuel + 1, n =>
      if n < 10 then [digitChar48 n]
      else natDecimalCharsAux fuel (n / 10) ++ [digitChar48 (n % 10)]

/-- Decimal digit characters of a natural number. -/
def natDecimalChars (n : Nat) : List Char :=
  natDecimalCharsAux (n + 1) n

/-- Decimal rendering of an integer, as `JSON.stringify` renders an integer
object key. -/
def intDecimalString (n : Int) : String :=
  if n < 0 then String.mk ('-' :: natDecimalChars n.natAbs)
  else String.mk (natDecimalChars n.natAbs)

/-- Serialization of a `CalendarData` value: every integer year key becomes
its decimal text, the month arrays (and the day records inside them) are
carried unchanged, in the same order (`JSON.stringify(data)` in
`JsonExporter.export` / `exportToJson`). -/
def serializeCalendarData (d : List (Int × List RawMonth)) :
    List (String × List RawMonth) :=
  d.map (fun p => (intDecimalString p.1, p.2))

/-- Deserialization of a stored dataset (`JSON.parse` in
`handleConvertCommand` + the `parseInt(year, 10)` key conversion the
consumers apply): each text key parses back to an integer, the values are
carried unchanged. -/
def deserializeCalendarData (d : List (String × List RawMonth)) :
    Option (List (Int × List RawMonth)) :=
  d.mapM (fun p => (parseIntJS p.1).map (fun n => (n, p.2)))

/-- The inverse digit table, used only to build well-formed test data. -/
def englishToNepaliChar (c : Char) : Char :=
  if c = '0' then '०'
  else if c = '1' then '१'
  else if c = '2' then '२'
  else if c = '3' then '३'
  else if c = '4' then '४'
  else if c = '5' then '५'
  else if c = '6' then '६'
  else if c = '7' then '७'
  else if c = '8' then '८'
  else if c = '9' then '९'
  else c

/-- A well-formed day record carrying day number `n` (Nepali glyphs in
`day`, decimal text in `dayInEn` and `en`). -/
def mkDay (n : Nat) : RawDay :=
  { isHoliday := some false, tithi := none, event := none,
    day := String.mk ((natDecimalChars n).map englishToNepaliChar),
    dayInEn := String.mk (natDecimalChars n),
    en := String.mk (natDecimalChars n) }

/-- A month record whose days carry the given day numbers. -/
def mkSeqMonth (m : Int) (nums : List Nat) : RawMonth :=
  ⟨m, some (nums.map mkDay)⟩

/-- Thirty well-formed days, numbered 1 to 30. -/
def days30 : List RawDay :=
  (List.range 30).map (fun i => mkDay (i + 1))

/-- The claim's wording of a flagged adjacent pair in the sequential-day
check: `current != previous + 1` and not (`previous > 28 and current == 1`)
(spec-side definition, compared against the source-side `seqWarnings`). -/
def badPairB (p c : Int) : Bool :=
  decide (c ≠ p + 1 ∧ ¬(p > 28 ∧ c = 1))

/-- The month record `scrapeMonth` builds for a unit whose fetch returned
day records (the failure cases never reach the month constructor; the
`days := none` filler there is arbitrary). -/
def fetchedMonth (fetch : Int → Int → FetchResult) (y m : Int) : RawMonth :=
  match fetch y m with
  | .ok days => ⟨m, some days⟩
  | _ => ⟨m, none⟩

/-- A unit `(y, m)` succeeds: its fetch returns day records and the
per-unit validation passes. -/
def unitOk (fetch : Int → Int → FetchResult) (y m : Int) : Prop :=
  ∃ days, fetch y m = .ok days
    ∧ (validateCalendarMonth ⟨m, some days⟩ (m - 1)).isValid = true

/-- The event block of one successfully completed unit `(mi, m)` of year
`y` at year index `yi`: optional progress callback, fetch, success
bookkeeping, rate-limit wait. -/
def unitEvs (cb : Bool) (totY totM : Nat) (yi : Nat) (y : Int) (p : Nat × Int) :
    List Ev :=
  (if cb then [Ev.progress ⟨y, p.2, totY, totM, yi, p.1⟩] else [])
    ++ [Ev.fetch y p.2, Ev.recSuccess, Ev.wait]

/-- Push a list of month records onto `data[y]` in order. -/
def pushMonths (d : List (Int × List RawMonth)) (y : Int) (l : List RawMonth) :
    List (Int × List RawMonth) :=
  l.foldl (fun d m => pushMonth d y m) d

/-- The net effect of one fully successful year iteration on the dataset:
`data[y] = []` followed by one push per configured month. -/
def processYear (fetch : Int → Int → FetchResult) (months : List Int)
    (d : List (Int × List RawMonth)) (y : Int) : List (Int × List RawMonth) :=
  pushMonths (setKey d y []) y (months.map (fetchedMonth fetch y))

/-- A twelve-month year whose month at index 3 declares `month = 9` and is
otherwise valid (every other index `i` declares `i + 1`; all months carry
30 well-formed days). -/
def twelveEx : List RawMonth :=
  (List.range 12).map (fun i => RawMonth.mk (if i = 3 then 9 else (i : Int) + 1) (some days30))

/-- A one-unit configuration (year 2081, month 1). -/
def cfgEx : ScraperConfig := ⟨[2081], [1], 0, 3, 30000, false⟩

/-- A fetch collaborator that returns 30 well-formed days for every unit. -/
def fetchOkEx : Int → Int → FetchResult := fun _ _ => .ok days30

/-- A fetch collaborator that raises a timeout-pattern `Error` on every
unit. -/
def fetchTimeoutEx : Int → Int → FetchResult :=
  fun _ _ => .errJs "Navigation timeout of 30000 ms exceeded"

/-- A constant `Date.now()` stream for concrete runs. -/
def clock0 : Nat → Int := fun _ => 0

/-- The optional progress-callback event opening a unit's event block
(`none` models a run without a supplied callback). -/
def progressPrefix (o : Option ProgressInfo) : List Ev :=
  match o with
  | none => []
  | some p => [Ev.progress p]

/-- Zero or more completed-unit event blocks: each block is the unit's
optional progress record, its fetch, its `recordSuccess`, and then exactly
one `waitForNextRequest` call — the wait comes immediately after every
successfully completed unit. -/
inductive UnitBlocks : List Ev → Prop
  | nil : UnitBlocks []
  | unit (o : Option ProgressInfo) (y m : Int) (t : List Ev) (ht : UnitBlocks t) :
      UnitBlocks (progressPrefix o ++ Ev.fetch y m :: Ev.recSuccess :: Ev.wait :: t)

/-- The event-log grammar of an arbitrary `scrape` run with an initialized
page: completed-unit blocks (each closed by its wait), after which the run
either ends or aborts with one failing unit's block — optional progress,
its fetch, then `recordError`, with no wait.  In particular a wait follows
every successfully completed unit, a wait stands between every pair of
consecutive fetches, and no wait precedes the first fetch. -/
inductive ScrapeTrace : List Ev → Prop
  | done : ScrapeTrace []
  | abort (o : Option ProgressInfo) (y m : Int) :
      ScrapeTrace (progressPrefix o ++ [Ev.fetch y m, Ev.recError])
  | unit (o : Option ProgressInfo) (y m : Int) (t : List Ev) (ht : ScrapeTrace t) :
      ScrapeTrace (progressPrefix o ++ Ev.fetch y m :: Ev.recSuccess :: Ev.wait :: t)

/-! ## Helper lemmas -/

/-- Iterating `recordError` adds to the consecutive-error count. -/
theorem recordError_iterate (s : RLState) (k : Nat) :
    (recordError^[k] s).consecutiveErrors = s.consecutiveErrors + k := by
  induction k with
  | zero => simp
  | succ k ih =>
      rw [Function.iterate_succ_apply']
      simp [recordError, ih]
      omega

/-- A list's length compares equal to zero exactly when it is nil. -/
theorem length_beq_zero_iff (l : List String) : ((l.length == 0) = true) ↔ l = [] := by
  cases l <;> simp

/-! ## C1 -/

/-- C1 fails as stated: with `useExponentialBackoff = true`, `minDelay = 2`
and `maxDelay = 1`, after `k = 0` `recordError()` calls `getCurrentDelay()`
returns `minDelay = 2`, not `min(minDelay * 2^0, maxDelay) = 1` — the code
only applies the capped backoff formula when `consecutiveErrors > 0`. -/
theorem c1_counterexample :
    ¬ (getCurrentDelay ⟨2, 1, true⟩ (recordError^[0] RLState.initial)
        = min ((2 : Int) * 2 ^ (0 : Nat)) 1) := by
  decide

/-- C1 (amended): for every configuration with
`useExponentialBackoff = true` and every `k ≥ 1`, after `k` consecutive
`recordError()` calls from a zero-error state `getCurrentDelay()` returns
`min(minDelay * 2^k, maxDelay)`; for `k = 0`, and after any
`recordSuccess()`, it returns `minDelay`.  (`getCurrentDelay` embeds as a
pure state reader: the method body contains no writes.) -/
theorem c1_backoff_delay (cfg : RateLimiterConfig) (s : RLState) (k : Nat)
    (hb : cfg.useExponentialBackoff = true) (h0 : s.consecutiveErrors = 0) :
    (getCurrentDelay cfg (recordError^[k] s)
        = if k = 0 then cfg.minDelay else min (cfg.minDelay * 2 ^ k) cfg.maxDelay)
      ∧ (∀ s' : RLState, getCurrentDelay cfg (recordSuccess s') = cfg.minDelay) := by
  constructor
  · cases k with
    | zero => simp [getCurrentDelay, h0]
    | succ k =>
        have hc : (recordError^[k + 1] s).consecutiveErrors = k + 1 := by
          rw [recordError_iterate, h0]; omega
        unfold getCurrentDelay
        rw [hc, hb]
        simp
  · intro s'
    simp [getCurrentDelay, recordSuccess]

/-- Witness for `c1_backoff_delay` at the default configuration with three
consecutive errors. -/
theorem c1_backoff_delay_witness :
    (createDefaultRateLimiterConfig.useExponentialBackoff = true)
      ∧ (RLState.initial.consecutiveErrors = 0)
      ∧ ((getCurrentDelay createDefaultRateLimiterConfig (recordError^[3] RLState.initial)
            = if (3 : Nat) = 0 then createDefaultRateLimiterConfig.minDelay
              else min (createDefaultRateLimiterConfig.minDelay * 2 ^ (3 : Nat))
                createDefaultRateLimiterConfig.maxDelay)
          ∧ (∀ s' : RLState, getCurrentDelay createDefaultRateLimiterConfig (recordSuccess s')
              = createDefaultRateLimiterConfig.minDelay)) :=
  ⟨rfl, rfl, c1_backoff_delay createDefaultRateLimiterConfig RLState.initial 3 rfl rfl⟩

/-! ## C8 -/

/-- C8: every result of the day, month, year and dataset validators has
`isValid` equal to emptiness of its `errors` list — an error forces
`isValid = false`, and warnings alone never do. -/
theorem c8_isValid_iff_no_errors :
    (∀ (d : RawDay) (i : Nat),
        ((validateCalendarDay d i).isValid = true ↔ (validateCalendarDay d i).errors = []))
      ∧ (∀ (m : RawMonth) (mi : Int),
        ((validateCalendarMonth m mi).isValid = true
          ↔ (validateCalendarMonth m mi).errors = []))
      ∧ (∀ (y : Option (List RawMonth)) (yn : Int),
        ((validateCalendarYear y yn).isValid = true
          ↔ (validateCalendarYear y yn).errors = []))
      ∧ (∀ dat : Option (List (String × Option (List RawMonth))),
        ((validateScrapedData dat).isValid = true ↔ (validateScrapedData dat).errors = [])) := by
  refine ⟨fun d i => ?_, fun m mi => ?_, fun y yn => ?_, fun dat => ?_⟩
  · exact length_beq_zero_iff _
  · obtain ⟨mm, md⟩ := m
    cases md with
    | none => simp [validateCalendarMonth]
    | some days => exact length_beq_zero_iff _
  · cases y with
    | none => simp [validateCalendarYear]
    | some months => exact length_beq_zero_iff _
  · cases dat with
    | none => simp [validateScrapedData]
    | some entries => exact length_beq_zero_iff _

/-! ## C4 -/

/-- The sequential-day loop emits one warning per adjacent pair flagged by
the claim's condition. -/
theorem seqWarningsAux_length (mi : Int) :
    ∀ (l : List Int) (i : Nat) (prev : Int),
      (seqWarningsAux mi i prev l).length
        = ((prev :: l).zip l).countP (fun pc => badPairB pc.1 pc.2) := by
  intro l
  induction l with
  | nil => intro i prev; simp [seqWarningsAux]
  | cons c rest ih =>
      intro i prev
      simp only [seqWarningsAux, List.zip_cons_cons, List.countP_cons, List.length_append, ih]
      by_cases h : c ≠ prev + 1 ∧ ¬(28 < prev ∧ c = 1)
      · have hb : badPairB prev c = true := by
          simp only [badPairB, decide_eq_true_eq]; exact h
        rw [if_pos h]
        simp [hb]
        omega
      · have hb : badPairB prev c = false := by
          simp only [badPairB, decide_eq_false_iff_not]; exact h
        rw [if_neg h]
        simp [hb]

/-- C4: for every month record the sequential-day check emits exactly one
warning per adjacent pair of parsed `dayInEn` values with
`current != previous + 1` and not (`previous > 28` and `current == 1`);
these land in `warnings` (after the other month warnings), never in
`errors`; day sequences `[1,2,3]` and `[29,30,1]` produce no sequence
warning and `[5,7]` produces exactly one. -/
theorem c4_sequential_day_check :
    (∀ (mi : Int) (nums : List Int),
        (seqWarnings mi nums).length
          = (nums.zip nums.tail).countP (fun pc => badPairB pc.1 pc.2))
      ∧ (∀ (mi : Int) (m : RawMonth), ∃ pre,
        (validateCalendarMonth m mi).warnings
          = pre ++ seqWarnings (mi + 1) (dayNumbersOf (m.days.getD [])))
      ∧ validateCalendarMonth (mkSeqMonth 1 [1, 2, 3]) 0
          = ⟨true, [], ["Month 1: Unusual number of days (3)"]⟩
      ∧ validateCalendarMonth (mkSeqMonth 1 [29, 30, 1]) 0
          = ⟨true, [], ["Month 1: Unusual number of days (3)"]⟩
      ∧ validateCalendarMonth (mkSeqMonth 1 [5, 7]) 0
          = ⟨true, [],
              ["Month 1: Unusual number of days (2)",
               "Month 1: Non-sequential day numbers at position 1"]⟩ := by
  refine ⟨fun mi nums => ?_, fun mi m => ?_, by decide, by decide, by decide⟩
  · match nums with
    | [] => simp [seqWarnings]
    | [x] => simp [seqWarnings]
    | p :: c :: rest => simpa [seqWarnings] using seqWarningsAux_length mi (c :: rest) 1 p
  · obtain ⟨mm, md⟩ := m
    cases md with
    | none =>
        refine ⟨[], ?_⟩
        simp [validateCalendarMonth, dayNumbersOf, seqWarnings]
    | some days =>
        refine ⟨monthDayWarnings (mi + 1) days, ?_⟩
        simp [validateCalendarMonth]

/-! ## C5 -/

/-- The day validator's `isValid` is emptiness of its `errors`. -/
theorem day_isValid_iff (d : RawDay) (i : Nat) :
    (validateCalendarDay d i).isValid = true ↔ (validateCalendarDay d i).errors = [] :=
  length_beq_zero_iff _

/-- C5: on a day record with all fields present, a boolean `isHoliday` and
an in-range `dayInEn`, a numeral-conversion mismatch yields the mismatch
warning and still `isValid = true` (warning only, never an error); a
`dayInEn` that does not parse to an integer in `[1, 32]` yields the
invalid-day-number error and `isValid = false`; the conversion maps the ten
native digit glyphs by the fixed table, leaves unmapped characters
unchanged, and acts characterwise. -/
theorem c5_day_numeral_checks :
    (∀ (d : RawDay) (i : Nat),
        d.day ≠ "" → d.dayInEn ≠ "" → d.en ≠ "" → d.isHoliday ≠ none →
        dayInEnParsesInRange d.dayInEn = true →
        (validateCalendarDay d i).isValid = true
          ∧ (convertNepaliToEnglish d.day ≠ d.dayInEn →
              mismatchMsg (i + 1) d.day d.dayInEn ∈ (validateCalendarDay d i).warnings))
      ∧ (∀ (d : RawDay) (i : Nat),
        d.dayInEn ≠ "" → dayInEnParsesInRange d.dayInEn = false →
        invalidDayNumMsg (i + 1) d.dayInEn ∈ (validateCalendarDay d i).errors
          ∧ (validateCalendarDay d i).isValid = false)
      ∧ convertNepaliToEnglish "०१२३४५६७८९" = "0123456789"
      ∧ (∀ c : Char, nepaliToEnglishChar c = none →
          convertNepaliToEnglish (String.mk [c]) = String.mk [c])
      ∧ (∀ s t : String, convertNepaliToEnglish (s ++ t)
          = convertNepaliToEnglish s ++ convertNepaliToEnglish t) := by
  refine ⟨fun d i h1 h2 h3 h4 hp => ?_, fun d i h2 hp => ?_, by decide,
    fun c hc => ?_, fun s t => ?_⟩
  · rcases hq : parseIntJS d.dayInEn with _ | n
    · exfalso
      unfold dayInEnParsesInRange at hp
      rw [hq] at hp
      exact Bool.noConfusion hp
    · have hn : 1 ≤ n ∧ n ≤ 32 := by
        unfold dayInEnParsesInRange at hp
        rw [hq] at hp
        exact of_decide_eq_true hp
      have hr : ¬(n < 1 ∨ 32 < n) := by omega
      constructor
      · simp [validateCalendarDay, h1, h2, h3, h4, hq, hr]
      · intro hm
        simp [validateCalendarDay, h1, h2, hm]
  · have hmem : invalidDayNumMsg (i + 1) d.dayInEn ∈ (validateCalendarDay d i).errors := by
      rcases hq : parseIntJS d.dayInEn with _ | n
      · simp [validateCalendarDay, h2, hq]
      · have hn : ¬(1 ≤ n ∧ n ≤ 32) := by
          unfold dayInEnParsesInRange at hp
          rw [hq] at hp
          exact of_decide_eq_false hp
        have hr : n < 1 ∨ 32 < n := by omega
        simp [validateCalendarDay, h2, hq, hr]
    refine ⟨hmem, ?_⟩
    have hnv : ¬ ((validateCalendarDay d i).isValid = true) := by
      intro hv
      rw [day_isValid_iff] at hv
      rw [hv] at hmem
      exact absurd hmem (List.not_mem_nil _)
    exact Bool.eq_false_iff.mpr hnv
  · simp [convertNepaliToEnglish, hc]
  · cases s with
    | mk l =>
        cases t with
        | mk l' =>
            show convertNepaliToEnglish (String.mk (l ++ l')) = _
            simp [convertNepaliToEnglish]
            rfl

/-- Witness for `c5_day_numeral_checks` on a day whose Nepali glyph `५`
disagrees with its `dayInEn` text `7`. -/
theorem c5_day_numeral_checks_witness :
    ((RawDay.mk (some false) none none "५" "7" "7").day ≠ ""
        ∧ (RawDay.mk (some false) none none "५" "7" "7").dayInEn ≠ ""
        ∧ (RawDay.mk (some false) none none "५" "7" "7").en ≠ ""
        ∧ (RawDay.mk (some false) none none "५" "7" "7").isHoliday ≠ none
        ∧ dayInEnParsesInRange (RawDay.mk (some false) none none "५" "7" "7").dayInEn = true)
      ∧ ((validateCalendarDay (RawDay.mk (some false) none none "५" "7" "7") 0).isValid = true
        ∧ (convertNepaliToEnglish (RawDay.mk (some false) none none "५" "7" "7").day
              ≠ (RawDay.mk (some false) none none "५" "7" "7").dayInEn →
            mismatchMsg 1 (RawDay.mk (some false) none none "५" "7" "7").day
                (RawDay.mk (some false) none none "५" "7" "7").dayInEn
              ∈ (validateCalendarDay (RawDay.mk (some false) none none "५" "7" "7") 0).warnings)) :=
  ⟨⟨by decide, by decide, by decide, by decide, by decide⟩,
    c5_day_numeral_checks.1 (RawDay.mk (some false) none none "५" "7" "7") 0
      (by decide) (by decide) (by decide) (by decide) (by decide)⟩

/-! ## C6 -/

/-- C6: year validation errors when the month count differs from 12 but
still validates the months present (each month's errors appear,
year-prefixed, in the year's errors); it errors for every index whose
declared month number differs from its 1-based position; and on twelve
otherwise-valid months where index 3 declares `month = 9` it reports
exactly that one positional-mismatch error. -/
theorem c6_year_validation :
    (∀ (yn : Int) (ms : List RawMonth), ms.length ≠ 12 →
        yearLenMsg yn ms.length ∈ (validateCalendarYear (some ms) yn).errors)
      ∧ (∀ (yn : Int) (ms : List RawMonth), ∀ p ∈ ms.enum,
        ∀ e ∈ (validateCalendarMonth p.2 (p.1 : Int)).errors,
          (s!"Year {yn}, " ++ e) ∈ (validateCalendarYear (some ms) yn).errors)
      ∧ (∀ (yn : Int) (ms : List RawMonth), ∀ p ∈ ms.enum,
        p.2.month ≠ (p.1 : Int) + 1 →
          yearMonthNumMsg yn p.1 p.2.month ∈ (validateCalendarYear (some ms) yn).errors)
      ∧ validateCalendarYear (some twelveEx) 2081
          = ⟨false, [yearMonthNumMsg 2081 3 9], []⟩ := by
  refine ⟨fun yn ms h => ?_, fun yn ms p hp e he => ?_, fun yn ms p hp hm => ?_, by decide⟩
  · simp [validateCalendarYear, h]
  · simp only [validateCalendarYear]
    refine List.mem_append.mpr (Or.inl (List.mem_append.mpr (Or.inr ?_)))
    rw [List.mem_flatMap]
    exact ⟨p, hp, List.mem_map_of_mem _ he⟩
  · simp only [validateCalendarYear]
    refine List.mem_append.mpr (Or.inr ?_)
    rw [List.mem_flatMap]
    exact ⟨p, hp, by simp [hm]⟩

/-- Witness for `c6_year_validation` on an empty month array (length 0) and
on the twelve-month fixture's mismatched index 3. -/
theorem c6_year_validation_witness :
    (([] : List RawMonth).length ≠ 12
        ∧ yearLenMsg 2080 0 ∈ (validateCalendarYear (some []) 2080).errors)
      ∧ ((3, RawMonth.mk 9 (some days30)) ∈ twelveEx.enum
        ∧ (RawMonth.mk 9 (some days30)).month ≠ ((3 : Nat) : Int) + 1
        ∧ yearMonthNumMsg 2081 3 9 ∈ (validateCalendarYear (some twelveEx) 2081).errors) :=
  ⟨⟨by decide, c6_year_validation.1 2080 [] (by decide)⟩,
    ⟨by decide, by decide,
      c6_year_validation.2.2.1 2081 twelveEx (3, RawMonth.mk 9 (some days30))
        (by decide) (by decide)⟩⟩

/-! ## C9 -/

/-- The character for a digit value is that digit: its code point, digit
status, and distinctness from whitespace and signs. -/
theorem digitChar48_spec (r : Nat) (h : r < 10) :
    (digitChar48 r).toNat = 48 + r ∧ (digitChar48 r).isDigit = true := by
  interval_cases r <;> exact ⟨by decide, by decide⟩

/-- A digit character is not whitespace and not a sign. -/
theorem isDigit_side (c : Char) (h : c.isDigit = true) :
    jsWhitespace c = false ∧ c ≠ '-' ∧ c ≠ '+' := by
  refine ⟨?_, ?_, ?_⟩
  · by_contra hw
    have hw' : jsWhitespace c = true := by revert hw; cases jsWhitespace c <;> simp
    simp only [jsWhitespace, Bool.or_eq_true, decide_eq_true_eq] at hw'
    rcases hw' with ((rfl | rfl) | rfl) | rfl <;> exact absurd h (by decide)
  · intro hc; subst hc; exact absurd h (by decide)
  · intro hc; subst hc; exact absurd h (by decide)

/-- Appending one digit multiplies the accumulated value by ten. -/
theorem digitsToNat_append_digit (l : List Char) (c : Char) :
    digitsToNat (l ++ [c]) = 10 * digitsToNat l + (c.toNat - 48) := by
  simp [digitsToNat, List.foldl_append]

/-- With sufficient fuel, the decimal writer produces a nonempty all-digit
string whose digit value is the number written. -/
theorem natDecimalCharsAux_spec :
    ∀ (fuel n : Nat), n < fuel →
      digitsToNat (natDecimalCharsAux fuel n) = n
        ∧ natDecimalCharsAux fuel n ≠ []
        ∧ ∀ c ∈ natDecimalCharsAux fuel n, c.isDigit = true := by
  intro fuel
  induction fuel with
  | zero => intro n h; omega
  | succ fuel ih =>
      intro n h
      by_cases h10 : n < 10
      · obtain ⟨hv, hd⟩ := digitChar48_spec n h10
        refine ⟨?_, by simp [natDecimalCharsAux, h10], ?_⟩
        · simp [natDecimalCharsAux, h10, digitsToNat, hv]
        · intro c hc
          simp [natDecimalCharsAux, h10] at hc
          subst hc
          exact hd
      · have hdiv : n / 10 < fuel := by
          have h1 : n / 10 < n := Nat.div_lt_self (by omega) (by omega)
          omega
        obtain ⟨hval, hne, hdig⟩ := ih (n / 10) hdiv
        have hm : n % 10 < 10 := Nat.mod_lt n (by omega)
        obtain ⟨hv, hd⟩ := digitChar48_spec (n % 10) hm
        refine ⟨?_, by simp [natDecimalCharsAux, h10], ?_⟩
        · rw [show natDecimalCharsAux (fuel + 1) n
              = natDecimalCharsAux fuel (n / 10) ++ [digitChar48 (n % 10)] by
            simp [natDecimalCharsAux, h10]]
          rw [digitsToNat_append_digit, hval, hv]
          omega
        · intro c hc
          simp only [natDecimalCharsAux, if_neg h10, List.mem_append,
            List.mem_singleton] at hc
          rcases hc with hc | rfl
          · exact hdig c hc
          · exact hd

/-- A predicate holding on every element lets `takeWhile` keep the whole
list. -/
theorem takeWhile_of_all {p : Char → Bool} :
    ∀ l : List Char, (∀ c ∈ l, p c = true) → l.takeWhile p = l := by
  intro l h
  induction l with
  | nil => rfl
  | cons c cs ih =>
      rw [List.takeWhile_cons, h c (List.mem_cons_self c cs)]
      rw [ih (fun x hx => h x (List.mem_cons_of_mem c hx))]
      simp

/-- Parsing a nonempty all-digit string yields its digit value. -/
theorem parseIntJS_mk_digits (l : List Char) (hne : l ≠ [])
    (hd : ∀ c ∈ l, c.isDigit = true) :
    parseIntJS (String.mk l) = some ((digitsToNat l : Nat) : Int) := by
  obtain ⟨c, rest, rfl⟩ := List.exists_cons_of_ne_nil hne
  have hc := hd c (List.mem_cons_self c rest)
  obtain ⟨hw, hminus, hplus⟩ := isDigit_side c hc
  have hdrop : (c :: rest).dropWhile jsWhitespace = c :: rest := by
    simp [List.dropWhile_cons, hw]
  have htake : (c :: rest).takeWhile Char.isDigit = c :: rest :=
    takeWhile_of_all _ hd
  show parseIntJS (String.mk (c :: rest)) = _
  unfold parseIntJS
  rw [show (String.mk (c :: rest)).data = c :: rest from rfl, hdrop]
  split
  · next rest' heq =>
      exact absurd (List.head_eq_of_cons_eq heq) hminus
  · next rest' heq =>
      exact absurd (List.head_eq_of_cons_eq heq) hplus
  · next cs h1 h2 =>
      rw [htake]
      simp

/-- Parsing the decimal rendering of an integer recovers it. -/
theorem parseIntJS_intDecimalString (n : Int) :
    parseIntJS (intDecimalString n) = some n := by
  obtain ⟨hval, hne, hdig⟩ :=
    natDecimalCharsAux_spec (n.natAbs + 1) n.natAbs (by omega)
  by_cases hn : n < 0
  · rw [intDecimalString, if_pos hn]
    have hdrop : ('-' :: natDecimalChars n.natAbs).dropWhile jsWhitespace
        = '-' :: natDecimalChars n.natAbs := by
      simp [List.dropWhile_cons, jsWhitespace]
    have htake : (natDecimalChars n.natAbs).takeWhile Char.isDigit
        = natDecimalChars n.natAbs := takeWhile_of_all _ hdig
    unfold parseIntJS
    rw [show (String.mk ('-' :: natDecimalChars n.natAbs)).data
        = '-' :: natDecimalChars n.natAbs from rfl, hdrop]
    have hred : (match ('-' :: natDecimalChars n.natAbs : List Char) with
        | '-' :: rest =>
            let ds := rest.takeWhile Char.isDigit
            if ds.isEmpty then none else some (-(digitsToNat ds : Int))
        | '+' :: rest =>
            let ds := rest.takeWhile Char.isDigit
            if ds.isEmpty then none else some ((digitsToNat ds : Nat) : Int)
        | cs =>
            let ds := cs.takeWhile Char.isDigit
            if ds.isEmpty then none else some ((digitsToNat ds : Nat) : Int))
        = (let ds := (natDecimalChars n.natAbs).takeWhile Char.isDigit
            if ds.isEmpty then none else some (-(digitsToNat ds : Int))) := rfl
    rw [hred, htake]
    have hemp : (natDecimalChars n.natAbs).isEmpty = false := by
      cases hh : natDecimalChars n.natAbs with
      | nil => exact absurd hh hne
      | cons a l => rfl
    simp only [hemp, Bool.false_eq_true, if_false]
    rw [show digitsToNat (natDecimalChars n.natAbs) = n.natAbs from hval]
    congr 1
    omega
  · rw [intDecimalString, if_neg hn]
    rw [parseIntJS_mk_digits (natDecimalChars n.natAbs) hne hdig,
      show digitsToNat (natDecimalChars n.natAbs) = n.natAbs from hval]
    congr 1
    omega

/-- C9: serializing a `CalendarData` value and deserializing the result
yields an equal value; the serialized form differs only in that each year
key is rendered as decimal text, with month objects, day records and their
order carried unchanged. -/
theorem c9_serialize_round_trip :
    (∀ d : List (Int × List RawMonth),
        deserializeCalendarData (serializeCalendarData d) = some d)
      ∧ (∀ d : List (Int × List RawMonth),
        (serializeCalendarData d).map Prod.fst = d.map (fun p => intDecimalString p.1))
      ∧ (∀ d : List (Int × List RawMonth),
        (serializeCalendarData d).map Prod.snd = d.map Prod.snd) := by
  refine ⟨fun d => ?_, fun d => by simp [serializeCalendarData],
    fun d => by simp [serializeCalendarData]⟩
  induction d with
  | nil => rfl
  | cons p rest ih =>
      obtain ⟨y, months⟩ := p
      simp only [serializeCalendarData, List.map_cons, deserializeCalendarData,
        List.mapM_cons, parseIntJS_intDecimalString, Option.map_some] at ih ⊢
      rw [ih]
      rfl

/-! ## Orchestrator lemmas -/

/-- A unit that fetches well-formed days and validates is returned as its
month record. -/
theorem scrapeMonth_ok (fetch : Int → Int → FetchResult) (y m : Int)
    (h : unitOk fetch y m) :
    scrapeMonth true fetch y m = .ok (fetchedMonth fetch y m) := by
  obtain ⟨days, hf, hv⟩ := h
  simp [scrapeMonth, hf, fetchedMonth, hv]

/-- A fully successful month loop pushes one fetched month per configured
month, emits one unit event block per month, and reports no error. -/
theorem monthsLoop_success (fetch : Int → Int → FetchResult) (cb : Bool)
    (clock : Nat → Int) (totY totM yi : Nat) (year : Int) :
    ∀ (ms : List Int) (mi : Nat) (st : LoopState),
      (∀ m ∈ ms, unitOk fetch year m) →
      ∃ rlT tickT,
        monthsLoop fetch cb clock totY totM yi year ms mi st
          = (⟨pushMonths st.data year (ms.map (fetchedMonth fetch year)), rlT, tickT⟩,
             (ms.enumFrom mi).flatMap (unitEvs cb totY totM yi year), none) := by
  intro ms
  induction ms with
  | nil =>
      intro mi st _
      exact ⟨st.rl, st.tick, by simp [monthsLoop, pushMonths]⟩
  | cons month rest ih =>
      intro mi st hok
      have hm := scrapeMonth_ok fetch year month (hok month (List.mem_cons_self month rest))
      obtain ⟨rlT, tickT, hrec⟩ := ih (mi + 1)
        ⟨pushMonth st.data year (fetchedMonth fetch year month),
          { recordSuccess st.rl with lastRequestTime := clock st.tick }, st.tick + 1⟩
        (fun m hm' => hok m (List.mem_cons_of_mem month hm'))
      refine ⟨rlT, tickT, ?_⟩
      cases cb <;>
        simp [monthsLoop, hm, hrec, Prod.mk.injEq, LoopState.mk.injEq, pushMonths,
          unitEvs, List.enumFrom_cons]

/-- A fully successful year loop folds `processYear` over the years, emits
the per-year unit event blocks in order, and reports no error. -/
theorem yearsLoop_success (fetch : Int → Int → FetchResult) (cb : Bool)
    (clock : Nat → Int) (totY totM : Nat) (months : List Int) :
    ∀ (ys : List Int) (yi : Nat) (st : LoopState),
      (∀ y ∈ ys, ∀ m ∈ months, unitOk fetch y m) →
      ∃ rlT tickT,
        yearsLoop fetch cb clock totY totM months ys yi st
          = (⟨ys.foldl (processYear fetch months) st.data, rlT, tickT⟩,
             (ys.enumFrom yi).flatMap (fun q =>
               (months.enumFrom 0).flatMap (unitEvs cb totY totM q.1 q.2)), none) := by
  intro ys
  induction ys with
  | nil =>
      intro yi st _
      exact ⟨st.rl, st.tick, by simp [yearsLoop]⟩
  | cons year rest ih =>
      intro yi st hok
      obtain ⟨rlM, tickM, hm⟩ := monthsLoop_success fetch cb clock totY totM yi year
        months 0 { st with data := setKey st.data year [] }
        (hok year (List.mem_cons_self year rest))
      obtain ⟨rlT, tickT, hrec⟩ := ih (yi + 1)
        ⟨pushMonths (setKey st.data year []) year (months.map (fetchedMonth fetch year)),
          rlM, tickM⟩
        (fun y hy => hok y (List.mem_cons_of_mem year hy))
      refine ⟨rlT, tickT, ?_⟩
      simp only [yearsLoop, hm, hrec, Prod.mk.injEq, LoopState.mk.injEq]
      refine ⟨⟨?_, trivial, trivial⟩, ?_, trivial⟩
      · simp [processYear]
      · simp [List.enumFrom_cons]

/-- Setting a key makes it present with the new value. -/
theorem lookupYear_setKey_self (d : List (Int × List RawMonth)) (y : Int)
    (v : List RawMonth) : lookupYear (setKey d y v) y = some v := by
  induction d with
  | nil => simp [setKey, lookupYear]
  | cons p rest ih =>
      obtain ⟨k, w⟩ := p
      by_cases h : k = y
      · simp [setKey, lookupYear, h]
      · simp [setKey, lookupYear, h, ih]

/-- Setting a key leaves other keys unchanged. -/
theorem lookupYear_setKey_ne (d : List (Int × List RawMonth)) (y z : Int)
    (v : List RawMonth) (h : z ≠ y) :
    lookupYear (setKey d y v) z = lookupYear d z := by
  induction d with
  | nil => simp [setKey, lookupYear, Ne.symm h]
  | cons p rest ih =>
      obtain ⟨k, w⟩ := p
      by_cases hk : k = y
      · subst hk
        simp [setKey, lookupYear, Ne.symm h]
      · simp [setKey, lookupYear, hk, ih]

/-- Pushing onto a present key appends to its value. -/
theorem lookupYear_pushMonth_self :
    ∀ (d : List (Int × List RawMonth)) (y : Int) (m : RawMonth) (w : List RawMonth),
      lookupYear d y = some w →
      lookupYear (pushMonth d y m) y = some (w ++ [m]) := by
  intro d
  induction d with
  | nil => intro y m w h; simp [lookupYear] at h
  | cons p rest ih =>
      intro y m w h
      obtain ⟨k, w'⟩ := p
      by_cases hk : k = y
      · subst hk
        simp [lookupYear] at h
        subst h
        simp [pushMonth, lookupYear]
      · simp only [lookupYear, if_neg hk] at h
        simp [pushMonth, lookupYear, hk, ih _ _ _ h]

/-- Pushing onto one key leaves other keys unchanged. -/
theorem lookupYear_pushMonth_ne :
    ∀ (d : List (Int × List RawMonth)) (y z : Int) (m : RawMonth), z ≠ y →
      lookupYear (pushMonth d y m) z = lookupYear d z := by
  intro d
  induction d with
  | nil => intro y z m h; simp [pushMonth]
  | cons p rest ih =>
      intro y z m h
      obtain ⟨k, w⟩ := p
      by_cases hk : k = y
      · subst hk
        simp [pushMonth, lookupYear, Ne.symm h]
      · simp [pushMonth, lookupYear, hk, ih _ _ _ h]

/-- Pushing a list of months appends it to a present key's value. -/
theorem lookupYear_pushMonths_self (y : Int) :
    ∀ (l : List RawMonth) (d : List (Int × List RawMonth)) (w : List RawMonth),
      lookupYear d y = some w →
      lookupYear (pushMonths d y l) y = some (w ++ l) := by
  intro l
  induction l with
  | nil => intro d w h; simpa [pushMonths] using h
  | cons m rest ih =>
      intro d w h
      have h1 := lookupYear_pushMonth_self d y m w h
      have h2 := ih (pushMonth d y m) (w ++ [m]) h1
      simpa [pushMonths, List.append_assoc] using h2

/-- Pushing a list of months leaves other keys unchanged. -/
theorem lookupYear_pushMonths_ne (y z : Int) (h : z ≠ y) :
    ∀ (l : List RawMonth) (d : List (Int × List RawMonth)),
      lookupYear (pushMonths d y l) z = lookupYear d z := by
  intro l
  induction l with
  | nil => intro d; simp [pushMonths]
  | cons m rest ih =>
      intro d
      have := ih (pushMonth d y m)
      simpa [pushMonths, lookupYear_pushMonth_ne d y z m h] using this

/-- One successful year iteration installs exactly that year's fetched
months and leaves every other key unchanged. -/
theorem lookupYear_processYear (fetch : Int → Int → FetchResult) (months : List Int)
    (d : List (Int × List RawMonth)) (y z : Int) :
    lookupYear (processYear fetch months d y) z
      = if z = y then some (months.map (fetchedMonth fetch y)) else lookupYear d z := by
  by_cases h : z = y
  · subst h
    rw [if_pos rfl]
    have := lookupYear_pushMonths_self z (months.map (fetchedMonth fetch z))
      (setKey d z []) [] (lookupYear_setKey_self d z [])
    simpa [processYear] using this
  · rw [if_neg h]
    rw [show processYear fetch months d y
        = pushMonths (setKey d y []) y (months.map (fetchedMonth fetch y)) from rfl]
    rw [lookupYear_pushMonths_ne y z h, lookupYear_setKey_ne d y z [] h]

/-- Years not processed by the fold keep their value. -/
theorem lookupYear_foldl_not_mem (fetch : Int → Int → FetchResult) (months : List Int)
    (y : Int) :
    ∀ (ys : List Int) (d : List (Int × List RawMonth)), y ∉ ys →
      lookupYear (ys.foldl (processYear fetch months) d) y = lookupYear d y := by
  intro ys
  induction ys with
  | nil => intro d _; rfl
  | cons z rest ih =>
      intro d hy
      rw [List.foldl_cons, ih _ (fun hmem => hy (List.mem_cons_of_mem z hmem))]
      rw [lookupYear_processYear,
        if_neg (by intro hzy; exact hy (by rw [hzy]; exact List.mem_cons_self z rest))]

/-- Every processed year ends up mapped to its fetched months. -/
theorem lookupYear_foldl_mem (fetch : Int → Int → FetchResult) (months : List Int) :
    ∀ (ys : List Int) (d : List (Int × List RawMonth)) (y : Int), y ∈ ys →
      lookupYear (ys.foldl (processYear fetch months) d) y
        = some (months.map (fetchedMonth fetch y)) := by
  intro ys
  induction ys with
  | nil => intro d y hy; exact absurd hy (List.not_mem_nil y)
  | cons z rest ih =>
      intro d y hy
      rw [List.foldl_cons]
      by_cases hmem : y ∈ rest
      · exact ih _ y hmem
      · have hz : y = z := by
          rcases List.mem_cons.mp hy with h | h
          · exact h
          · exact absurd h hmem
        subst hz
        rw [lookupYear_foldl_not_mem fetch months y rest _ hmem]
        rw [lookupYear_processYear, if_pos rfl]

/-- `progressOf` distributes over append. -/
theorem progressOf_append (a b : List Ev) :
    progressOf (a ++ b) = progressOf a ++ progressOf b := by
  simp [progressOf, List.filterMap_append]

/-- `progressOf` distributes over `flatMap`. -/
theorem progressOf_flatMap {α : Type} (l : List α) (f : α → List Ev) :
    progressOf (l.flatMap f) = l.flatMap (fun x => progressOf (f x)) := by
  induction l with
  | nil => rfl
  | cons a rest ih => simp [List.flatMap_cons, progressOf_append, ih]

/-- One unit event block carries exactly one progress record when a
callback is supplied, none otherwise. -/
theorem progressOf_unitEvs (cb : Bool) (totY totM yi : Nat) (y : Int) (p : Nat × Int) :
    progressOf (unitEvs cb totY totM yi y p)
      = if cb = true then [⟨y, p.2, totY, totM, yi, p.1⟩] else [] := by
  cases cb <;> rfl

/-- Flat-mapping to singletons is mapping. -/
theorem flatMap_singleton_map {α β : Type} (l : List α) (g : α → β) :
    l.flatMap (fun x => [g x]) = l.map g := by
  induction l with
  | nil => rfl
  | cons a rest ih => simp [List.flatMap_cons, ih]

/-- `flatMap` respects pointwise-equal functions. -/
theorem flatMap_congr_fun {α β : Type} (l : List α) (f g : α → List β)
    (h : ∀ x ∈ l, f x = g x) : l.flatMap f = l.flatMap g := by
  induction l with
  | nil => rfl
  | cons a rest ih =>
      simp only [List.flatMap_cons]
      rw [h a (List.mem_cons_self a rest),
        ih (fun x hx => h x (List.mem_cons_of_mem a hx))]

/-- A `flatMap` whose blocks all have the length of a fixed list multiplies
lengths. -/
theorem length_flatMap_const {α β γ : Type} (ms0 : List β) (g : α → β → γ) :
    ∀ l : List α, (l.flatMap (fun q => ms0.map (g q))).length = l.length * ms0.length := by
  intro l
  induction l with
  | nil => simp
  | cons a rest ih =>
      simp [List.flatMap_cons, ih, Nat.succ_mul]
      omega

/-! ## C7 -/

/-- C7: with an initialized page, a supplied callback and a fetch
collaborator whose every configured unit succeeds (fetch returns days and
the per-unit validation passes), `scrape` resolves; the dataset maps each
configured year to its fetched months in configured month order; the
progress records are exactly one per unit, in unit order, carrying the
configured year/month, the total counts, and the zero-based year and month
indices of the unit about to start; their count is `Y * M`; and the full
event log is the per-unit blocks in order (progress immediately before
each unit's fetch). -/
theorem c7_progress_and_dataset (cfg : ScraperConfig) (fetch : Int → Int → FetchResult)
    (clock : Nat → Int) (rl0 : RLState)
    (hf : ∀ y ∈ cfg.years, ∀ m ∈ cfg.months, unitOk fetch y m) :
    ∃ data, (scrape true cfg fetch true clock rl0).result = .ok data
      ∧ (∀ y ∈ cfg.years, lookupYear data y = some (cfg.months.map (fetchedMonth fetch y)))
      ∧ progressOf (scrape true cfg fetch true clock rl0).events
          = (cfg.years.enumFrom 0).flatMap (fun q =>
              (cfg.months.enumFrom 0).map (fun p =>
                ⟨q.2, p.2, cfg.years.length, cfg.months.length, q.1, p.1⟩))
      ∧ (progressOf (scrape true cfg fetch true clock rl0).events).length
          = cfg.years.length * cfg.months.length
      ∧ (scrape true cfg fetch true clock rl0).events
          = (cfg.years.enumFrom 0).flatMap (fun q =>
              (cfg.months.enumFrom 0).flatMap
                (unitEvs true cfg.years.length cfg.months.length q.1 q.2)) := by
  obtain ⟨rlT, tickT, hrun⟩ := yearsLoop_success fetch true clock cfg.years.length
    cfg.months.length cfg.months cfg.years 0 ⟨[], rl0, 0⟩ hf
  have hres : (scrape true cfg fetch true clock rl0).result
      = .ok (cfg.years.foldl (processYear fetch cfg.months) []) := by
    simp [scrape, hrun]
  have hevs : (scrape true cfg fetch true clock rl0).events
      = (cfg.years.enumFrom 0).flatMap (fun q =>
          (cfg.months.enumFrom 0).flatMap
            (unitEvs true cfg.years.length cfg.months.length q.1 q.2)) := by
    simp [scrape, hrun]
  have hprog : progressOf (scrape true cfg fetch true clock rl0).events
      = (cfg.years.enumFrom 0).flatMap (fun q =>
          (cfg.months.enumFrom 0).map (fun p =>
            ⟨q.2, p.2, cfg.years.length, cfg.months.length, q.1, p.1⟩)) := by
    rw [hevs, progressOf_flatMap]
    refine flatMap_congr_fun _ _ _ (fun q _ => ?_)
    rw [progressOf_flatMap,
      ← flatMap_singleton_map (cfg.months.enumFrom 0) (fun p =>
        ProgressInfo.mk q.2 p.2 cfg.years.length cfg.months.length q.1 p.1)]
    refine flatMap_congr_fun _ _ _ (fun p _ => ?_)
    simp [progressOf_unitEvs]
  refine ⟨cfg.years.foldl (processYear fetch cfg.months) [], hres, ?_, hprog, ?_, hevs⟩
  · intro y hy
    exact lookupYear_foldl_mem fetch cfg.months cfg.years [] y hy
  · rw [hprog, length_flatMap_const]
    simp

/-- Witness for `c7_progress_and_dataset` on the one-unit configuration
with a fetch collaborator returning 30 well-formed days. -/
theorem c7_progress_and_dataset_witness :
    (∀ y ∈ cfgEx.years, ∀ m ∈ cfgEx.months, unitOk fetchOkEx y m)
      ∧ (∃ data, (scrape true cfgEx fetchOkEx true clock0 RLState.initial).result = .ok data
        ∧ (∀ y ∈ cfgEx.years,
            lookupYear data y = some (cfgEx.months.map (fetchedMonth fetchOkEx y)))
        ∧ progressOf (scrape true cfgEx fetchOkEx true clock0 RLState.initial).events
            = (cfgEx.years.enumFrom 0).flatMap (fun q =>
                (cfgEx.months.enumFrom 0).map (fun p =>
                  ⟨q.2, p.2, cfgEx.years.length, cfgEx.months.length, q.1, p.1⟩))
        ∧ (progressOf (scrape true cfgEx fetchOkEx true clock0 RLState.initial).events).length
            = cfgEx.years.length * cfgEx.months.length
        ∧ (scrape true cfgEx fetchOkEx true clock0 RLState.initial).events
            = (cfgEx.years.enumFrom 0).flatMap (fun q =>
                (cfgEx.months.enumFrom 0).flatMap
                  (unitEvs true cfgEx.years.length cfgEx.months.length q.1 q.2))) := by
  have hf : ∀ y ∈ cfgEx.years, ∀ m ∈ cfgEx.months, unitOk fetchOkEx y m := by
    intro y hy m hm
    simp [cfgEx] at hy hm
    subst hy
    subst hm
    exact ⟨days30, rfl, by decide⟩
  exact ⟨hf, c7_progress_and_dataset cfgEx fetchOkEx clock0 RLState.initial hf⟩

/-- A failing month loop ends its event log with the failing unit's fetch
followed immediately by the error bookkeeping, and leaves a positive
consecutive-error count. -/
theorem monthsLoop_error (fetch : Int → Int → FetchResult) (cb : Bool)
    (clock : Nat → Int) (totY totM yi : Nat) (year : Int) :
    ∀ (ms : List Int) (mi : Nat) (st : LoopState) (e : ScraperError),
      (monthsLoop fetch cb clock totY totM yi year ms mi st).2.2 = some e →
      (∃ pre y m, (monthsLoop fetch cb clock totY totM yi year ms mi st).2.1
          = pre ++ [Ev.fetch y m, Ev.recError])
        ∧ 0 < ((monthsLoop fetch cb clock totY totM yi year ms mi st).1).rl.consecutiveErrors := by
  intro ms
  induction ms with
  | nil => intro mi st e h; simp [monthsLoop] at h
  | cons month rest ih =>
      intro mi st e h
      cases hm : scrapeMonth true fetch year month with
      | ok md =>
          simp only [monthsLoop, hm] at h ⊢
          obtain ⟨⟨pre, y, m, hpre⟩, hrl⟩ := ih (mi + 1) _ e h
          exact ⟨⟨_, y, m, by rw [hpre, ← List.append_assoc]⟩, hrl⟩
      | error e' =>
          simp only [monthsLoop, hm] at h ⊢
          refine ⟨⟨if cb = true then
              [Ev.progress ⟨year, month, totY, totM, yi, mi⟩] else [],
            year, month, by simp⟩, by simp [recordError]⟩

/-- A failing year loop inherits the failing month loop's event-log tail
and positive consecutive-error count. -/
theorem yearsLoop_error (fetch : Int → Int → FetchResult) (cb : Bool)
    (clock : Nat → Int) (totY totM : Nat) (months : List Int) :
    ∀ (ys : List Int) (yi : Nat) (st : LoopState) (e : ScraperError),
      (yearsLoop fetch cb clock totY totM months ys yi st).2.2 = some e →
      (∃ pre y m, (yearsLoop fetch cb clock totY totM months ys yi st).2.1
          = pre ++ [Ev.fetch y m, Ev.recError])
        ∧ 0 < ((yearsLoop fetch cb clock totY totM months ys yi st).1).rl.consecutiveErrors := by
  intro ys
  induction ys with
  | nil => intro yi st e h; simp [yearsLoop] at h
  | cons year rest ih =>
      intro yi st e h
      cases hr : (monthsLoop fetch cb clock totY totM yi year months 0
          { st with data := setKey st.data year [] }).2.2 with
      | none =>
          simp only [yearsLoop, hr] at h ⊢
          obtain ⟨⟨pre, y, m, hpre⟩, hrl⟩ := ih (yi + 1) _ e h
          exact ⟨⟨_, y, m, by rw [hpre, ← List.append_assoc]⟩, hrl⟩
      | some e' =>
          simp only [yearsLoop, hr] at h ⊢
          exact monthsLoop_error fetch cb clock totY totM yi year months 0 _ e' hr

/-! ## C3 -/

/-- C3: during a unit's fetch, a thrown `Error` whose message contains the
timeout pattern is raised as `TIMEOUT_ERROR`; any other not-yet-classified
failure (an `Error` without the pattern, or a non-`Error` value) is raised
as `NETWORK_ERROR`; a failure already carrying a `ScraperError` kind
propagates unchanged.  In every failing run with an initialized page, the
event log ends with the failing unit's fetch immediately followed by the
rate limiter's `recordError` (bookkeeping before re-raising), the final
consecutive-error count is positive, the run aborts and the caller
receives no (partial) dataset. -/
theorem c3_error_classification (fetch : Int → Int → FetchResult) :
    (∀ (y m : Int) (msg : String), fetch y m = .errJs msg →
        hasSubstr msg "timeout" = true →
        scrapeMonth true fetch y m
          = .error ⟨.TIMEOUT_ERROR, "Timeout while scraping " ++ scrapeUrl y m⟩)
      ∧ (∀ (y m : Int) (msg : String), fetch y m = .errJs msg →
        hasSubstr msg "timeout" = false →
        scrapeMonth true fetch y m
          = .error ⟨.NETWORK_ERROR, "Failed to scrape " ++ scrapeUrl y m⟩)
      ∧ (∀ (y m : Int), fetch y m = .errOther →
        scrapeMonth true fetch y m
          = .error ⟨.NETWORK_ERROR, "Failed to scrape " ++ scrapeUrl y m⟩)
      ∧ (∀ (y m : Int) (e : ScraperError), fetch y m = .errScraper e →
        scrapeMonth true fetch y m = .error e)
      ∧ (∀ (cfg : ScraperConfig) (cb : Bool) (clock : Nat → Int) (rl0 : RLState)
          (e : ScraperError),
        (scrape true cfg fetch cb clock rl0).result = .error e →
        (∃ pre y m, (scrape true cfg fetch cb clock rl0).events
            = pre ++ [Ev.fetch y m, Ev.recError])
          ∧ 0 < (scrape true cfg fetch cb clock rl0).rl.consecutiveErrors
          ∧ ∀ data, (scrape true cfg fetch cb clock rl0).result ≠ .ok data) := by
  refine ⟨fun y m msg hf ht => by simp [scrapeMonth, hf, ht],
    fun y m msg hf ht => by simp [scrapeMonth, hf, ht],
    fun y m hf => by simp [scrapeMonth, hf],
    fun y m e hf => by simp [scrapeMonth, hf],
    fun cfg cb clock rl0 e hres => ?_⟩
  cases hr : (yearsLoop fetch cb clock cfg.years.length cfg.months.length cfg.months
      cfg.years 0 ⟨[], rl0, 0⟩).2.2 with
  | none =>
      exfalso
      simp [scrape, hr] at hres
  | some e' =>
      have hevs : (scrape true cfg fetch cb clock rl0).events
          = (yearsLoop fetch cb clock cfg.years.length cfg.months.length cfg.months
              cfg.years 0 ⟨[], rl0, 0⟩).2.1 := by
        simp [scrape, hr]
      have hrl : (scrape true cfg fetch cb clock rl0).rl
          = ((yearsLoop fetch cb clock cfg.years.length cfg.months.length cfg.months
              cfg.years 0 ⟨[], rl0, 0⟩).1).rl := by
        simp [scrape, hr]
      obtain ⟨⟨pre, y, m, hpre⟩, hcnt⟩ := yearsLoop_error fetch cb clock
        cfg.years.length cfg.months.length cfg.months cfg.years 0 ⟨[], rl0, 0⟩ e' hr
      refine ⟨⟨pre, y, m, by rw [hevs, hpre]⟩, by rw [hrl]; exact hcnt, ?_⟩
      intro data hok
      rw [hok] at hres
      exact Except.noConfusion hres

/-- Witness for `c3_error_classification`: a timeout-pattern failure on the
single configured unit. -/
theorem c3_error_classification_witness :
    (fetchTimeoutEx 2081 1 = .errJs "Navigation timeout of 30000 ms exceeded"
        ∧ hasSubstr "Navigation timeout of 30000 ms exceeded" "timeout" = true
        ∧ scrapeMonth true fetchTimeoutEx 2081 1
            = .error ⟨.TIMEOUT_ERROR, "Timeout while scraping " ++ scrapeUrl 2081 1⟩)
      ∧ ((scrape true cfgEx fetchTimeoutEx false clock0 RLState.initial).result
            = .error ⟨.TIMEOUT_ERROR, "Timeout while scraping " ++ scrapeUrl 2081 1⟩
        ∧ ((∃ pre y m,
              (scrape true cfgEx fetchTimeoutEx false clock0 RLState.initial).events
                = pre ++ [Ev.fetch y m, Ev.recError])
          ∧ 0 < (scrape true cfgEx fetchTimeoutEx false clock0
              RLState.initial).rl.consecutiveErrors
          ∧ ∀ data, (scrape true cfgEx fetchTimeoutEx false clock0
              RLState.initial).result ≠ .ok data)) :=
  ⟨⟨rfl, by decide,
      (c3_error_classification fetchTimeoutEx).1 2081 1
        "Navigation timeout of 30000 ms exceeded" rfl (by decide)⟩,
    ⟨rfl,
      (c3_error_classification fetchTimeoutEx).2.2.2.2 cfgEx false clock0 RLState.initial
        ⟨.TIMEOUT_ERROR, "Timeout while scraping " ++ scrapeUrl 2081 1⟩ rfl⟩⟩

/-! ## C2 -/

/-- The month loop on a nonempty month list opens its event log with the
first unit's optional progress record followed by its fetch. -/
theorem monthsLoop_cons_events (fetch : Int → Int → FetchResult) (cb : Bool)
    (clock : Nat → Int) (totY totM yi : Nat) (year month : Int) (rest : List Int)
    (mi : Nat) (st : LoopState) :
    ∃ tail, (monthsLoop fetch cb clock totY totM yi year (month :: rest) mi st).2.1
      = (if cb = true then [Ev.progress ⟨year, month, totY, totM, yi, mi⟩] else [])
        ++ Ev.fetch year month :: tail := by
  cases hm : scrapeMonth true fetch year month with
  | ok md =>
      refine ⟨[Ev.recSuccess, Ev.wait]
        ++ (monthsLoop fetch cb clock totY totM yi year rest (mi + 1)
          ⟨pushMonth st.data year md,
            { recordSuccess st.rl with lastRequestTime := clock st.tick },
            st.tick + 1⟩).2.1, ?_⟩
      simp [monthsLoop, hm]
  | error e =>
      exact ⟨[Ev.recError], by simp [monthsLoop, hm]⟩

/-- With no configured months, the year loop emits no events and succeeds. -/
theorem yearsLoop_months_nil (fetch : Int → Int → FetchResult) (cb : Bool)
    (clock : Nat → Int) (totY totM : Nat) :
    ∀ (ys : List Int) (yi : Nat) (st : LoopState),
      (yearsLoop fetch cb clock totY totM [] ys yi st).2.1 = []
        ∧ (yearsLoop fetch cb clock totY totM [] ys yi st).2.2 = none := by
  intro ys
  induction ys with
  | nil => intro yi st; exact ⟨rfl, rfl⟩
  | cons year rest ih =>
      intro yi st
      have h := ih (yi + 1) { st with data := setKey st.data year [] }
      simp [yearsLoop, monthsLoop, h.1, h.2]

/-- No `wait` event can sit before the first fetch of an event log that
opens with progress records followed by a fetch. -/
theorem wait_not_mem_takeWhile_shape (cbL : List Ev)
    (hcb : ∀ x ∈ cbL, ∃ p, x = Ev.progress p) (y m : Int) (t : List Ev) :
    Ev.wait ∉ ((cbL ++ Ev.fetch y m :: t).takeWhile (fun e => !e.isFetch)) := by
  induction cbL with
  | nil => simp [List.takeWhile_cons, Ev.isFetch]
  | cons x rest ih =>
      obtain ⟨p, rfl⟩ := hcb x (List.mem_cons_self x rest)
      have ih' := ih (fun z hz => hcb z (List.mem_cons_of_mem _ hz))
      simp only [List.cons_append, List.takeWhile_cons, Ev.isFetch, Bool.not_false,
        if_true, List.mem_cons]
      intro hmem
      rcases hmem with hmem | hmem
      · exact Ev.noConfusion hmem
      · exact ih' hmem

/-- The events of a page-initialized `scrape` run are the year loop's
events, whether or not the run aborts. -/
theorem scrape_true_events (cfg : ScraperConfig) (fetch : Int → Int → FetchResult)
    (cb : Bool) (clock : Nat → Int) (rl0 : RLState) :
    (scrape true cfg fetch cb clock rl0).events
      = (yearsLoop fetch cb clock cfg.years.length cfg.months.length cfg.months
          cfg.years 0 ⟨[], rl0, 0⟩).2.1 := by
  cases hr : (yearsLoop fetch cb clock cfg.years.length cfg.months.length cfg.months
      cfg.years 0 ⟨[], rl0, 0⟩).2.2 <;> simp [scrape, hr]

/-- The year loop on nonempty years and months opens its event log with the
first unit's optional progress record followed by its fetch. -/
theorem yearsLoop_cons_events (fetch : Int → Int → FetchResult) (cb : Bool)
    (clock : Nat → Int) (totY totM : Nat) (y : Int) (ys : List Int) (m : Int)
    (ms : List Int) (yi : Nat) (st : LoopState) :
    ∃ tail, (yearsLoop fetch cb clock totY totM (m :: ms) (y :: ys) yi st).2.1
      = (if cb = true then [Ev.progress ⟨y, m, totY, totM, yi, 0⟩] else [])
        ++ Ev.fetch y m :: tail := by
  obtain ⟨tail0, htail⟩ := monthsLoop_cons_events fetch cb clock totY totM yi y m ms 0
    { st with data := setKey st.data y [] }
  cases herr : (monthsLoop fetch cb clock totY totM yi y (m :: ms) 0
      { st with data := setKey st.data y [] }).2.2 with
  | none =>
      refine ⟨tail0 ++ (yearsLoop fetch cb clock totY totM (m :: ms) ys (yi + 1)
        (monthsLoop fetch cb clock totY totM yi y (m :: ms) 0
          { st with data := setKey st.data y [] }).1).2.1, ?_⟩
      simp only [yearsLoop, herr]
      rw [htail]
      simp
  | some e =>
      refine ⟨tail0, ?_⟩
      simp only [yearsLoop, herr]
      exact htail

/-- The callback-conditional progress list is a `progressPrefix`. -/
theorem progressPrefix_if (cb : Bool) (p : ProgressInfo) :
    (if cb = true then [Ev.progress p] else [])
      = progressPrefix (if cb = true then some p else none) := by
  cases cb <;> rfl

/-- A completed-unit block in the loop's append grouping is a `UnitBlocks`
step. -/
theorem unit_block_shape (cbL : List Ev) (o : Option ProgressInfo)
    (hcb : cbL = progressPrefix o) (y m : Int) (t : List Ev) (ht : UnitBlocks t) :
    UnitBlocks ((cbL ++ [Ev.fetch y m]) ++ [Ev.recSuccess, Ev.wait] ++ t) := by
  subst hcb
  have hshape : ((progressPrefix o ++ [Ev.fetch y m]) ++ [Ev.recSuccess, Ev.wait] ++ t)
      = progressPrefix o ++ Ev.fetch y m :: Ev.recSuccess :: Ev.wait :: t := by
    simp
  rw [hshape]
  exact UnitBlocks.unit o y m t ht

/-- Completed-unit block sequences concatenate. -/
theorem UnitBlocks_append : ∀ (a b : List Ev), UnitBlocks a → UnitBlocks b →
    UnitBlocks (a ++ b) := by
  intro a b ha hb
  induction ha with
  | nil => simpa using hb
  | unit o y m t ht ih =>
      have hshape : (progressPrefix o ++ Ev.fetch y m :: Ev.recSuccess :: Ev.wait :: t) ++ b
          = progressPrefix o ++ Ev.fetch y m :: Ev.recSuccess :: Ev.wait :: (t ++ b) := by
        simp
      rw [hshape]
      exact UnitBlocks.unit o y m (t ++ b) ih

/-- A run of completed-unit blocks alone is a legal run trace. -/
theorem scrapeTrace_of_unitBlocks : ∀ l : List Ev, UnitBlocks l → ScrapeTrace l := by
  intro l h
  induction h with
  | nil => exact ScrapeTrace.done
  | unit o y m t _ ih => exact ScrapeTrace.unit o y m t ih

/-- Completed-unit blocks followed by one aborting block form a legal run
trace. -/
theorem scrapeTrace_of_decomp : ∀ (done : List Ev), UnitBlocks done →
    ∀ (o : Option ProgressInfo) (y m : Int),
      ScrapeTrace (done ++ (progressPrefix o ++ [Ev.fetch y m, Ev.recError])) := by
  intro done hub
  induction hub with
  | nil => intro o y m; simpa using ScrapeTrace.abort o y m
  | unit o' y' m' t _ ih =>
      intro o y m
      have hshape : (progressPrefix o' ++ Ev.fetch y' m' :: Ev.recSuccess :: Ev.wait :: t)
          ++ (progressPrefix o ++ [Ev.fetch y m, Ev.recError])
          = progressPrefix o' ++ Ev.fetch y' m' :: Ev.recSuccess :: Ev.wait ::
              (t ++ (progressPrefix o ++ [Ev.fetch y m, Ev.recError])) := by
        simp
      rw [hshape]
      exact ScrapeTrace.unit o' y' m' _ (ih o y m)

/-- The month loop's events are completed-unit blocks when it succeeds, and
completed-unit blocks followed by one aborting block when it fails. -/
theorem monthsLoop_trace (fetch : Int → Int → FetchResult) (cb : Bool)
    (clock : Nat → Int) (totY totM yi : Nat) (year : Int) :
    ∀ (ms : List Int) (mi : Nat) (st : LoopState),
      ((monthsLoop fetch cb clock totY totM yi year ms mi st).2.2 = none →
        UnitBlocks (monthsLoop fetch cb clock totY totM yi year ms mi st).2.1)
        ∧ (∀ e, (monthsLoop fetch cb clock totY totM yi year ms mi st).2.2 = some e →
          ∃ done o y m,
            (monthsLoop fetch cb clock totY totM yi year ms mi st).2.1
              = done ++ (progressPrefix o ++ [Ev.fetch y m, Ev.recError])
              ∧ UnitBlocks done) := by
  intro ms
  induction ms with
  | nil =>
      intro mi st
      exact ⟨fun _ => UnitBlocks.nil, fun e h => by simp [monthsLoop] at h⟩
  | cons month rest ih =>
      intro mi st
      cases hm : scrapeMonth true fetch year month with
      | ok md =>
          constructor
          · intro hnone
            simp only [monthsLoop, hm] at hnone ⊢
            exact unit_block_shape _
              (if cb = true then some ⟨year, month, totY, totM, yi, mi⟩ else none)
              (progressPrefix_if cb _) year month _ ((ih (mi + 1) _).1 hnone)
          · intro e hsome
            simp only [monthsLoop, hm] at hsome ⊢
            obtain ⟨doneT, o', y', m', hinner, hub'⟩ := (ih (mi + 1) _).2 e hsome
            refine ⟨((if cb = true then
                [Ev.progress ⟨year, month, totY, totM, yi, mi⟩] else [])
                ++ [Ev.fetch year month]) ++ [Ev.recSuccess, Ev.wait] ++ doneT,
              o', y', m', ?_, ?_⟩
            · rw [hinner]
              simp [List.append_assoc]
            · exact unit_block_shape _
                (if cb = true then some ⟨year, month, totY, totM, yi, mi⟩ else none)
                (progressPrefix_if cb _) year month doneT hub'
      | error e' =>
          constructor
          · intro hnone
            simp only [monthsLoop, hm] at hnone
            exact absurd hnone (by simp)
          · intro e hsome
            simp only [monthsLoop, hm] at hsome ⊢
            refine ⟨[],
              if cb = true then some ⟨year, month, totY, totM, yi, mi⟩ else none,
              year, month, ?_, UnitBlocks.nil⟩
            cases cb <;> simp [progressPrefix]

/-- The year loop's events are completed-unit blocks when it succeeds, and
completed-unit blocks followed by one aborting block when it fails. -/
theorem yearsLoop_trace (fetch : Int → Int → FetchResult) (cb : Bool)
    (clock : Nat → Int) (totY totM : Nat) (months : List Int) :
    ∀ (ys : List Int) (yi : Nat) (st : LoopState),
      ((yearsLoop fetch cb clock totY totM months ys yi st).2.2 = none →
        UnitBlocks (yearsLoop fetch cb clock totY totM months ys yi st).2.1)
        ∧ (∀ e, (yearsLoop fetch cb clock totY totM months ys yi st).2.2 = some e →
          ∃ done o y m,
            (yearsLoop fetch cb clock totY totM months ys yi st).2.1
              = done ++ (progressPrefix o ++ [Ev.fetch y m, Ev.recError])
              ∧ UnitBlocks done) := by
  intro ys
  induction ys with
  | nil =>
      intro yi st
      exact ⟨fun _ => UnitBlocks.nil, fun e h => by simp [yearsLoop] at h⟩
  | cons year rest ih =>
      intro yi st
      have hmt := monthsLoop_trace fetch cb clock totY totM yi year months 0
        { st with data := setKey st.data year [] }
      cases hr : (monthsLoop fetch cb clock totY totM yi year months 0
          { st with data := setKey st.data year [] }).2.2 with
      | none =>
          have hub1 := hmt.1 hr
          constructor
          · intro hnone
            simp only [yearsLoop, hr] at hnone ⊢
            exact UnitBlocks_append _ _ hub1 ((ih (yi + 1) _).1 hnone)
          · intro e hsome
            simp only [yearsLoop, hr] at hsome ⊢
            obtain ⟨doneT, o', y', m', hrest, hub'⟩ := (ih (yi + 1) _).2 e hsome
            refine ⟨(monthsLoop fetch cb clock totY totM yi year months 0
              { st with data := setKey st.data year [] }).2.1 ++ doneT,
              o', y', m', ?_, UnitBlocks_append _ _ hub1 hub'⟩
            rw [hrest]
            simp [List.append_assoc]
      | some e' =>
          constructor
          · intro hnone
            simp only [yearsLoop, hr] at hnone
            exact absurd hnone (by simp)
          · intro e hsome
            simp only [yearsLoop, hr] at hsome ⊢
            exact hmt.2 e' hr

/-- C2 (amended): in every run with an initialized page — aborting or not —
the event log matches the `ScrapeTrace` grammar: completed-unit blocks,
each closed by exactly one `waitForNextRequest` call immediately after the
unit's `recordSuccess`, optionally terminated by one aborting block that
has no wait.  Hence a wait follows every successfully completed unit and
separates every pair of consecutive fetches, while no wait call precedes
the first unit's fetch in any run; under all-units-succeed the log is
exactly the per-unit blocks in unit order.  (The source calls the wait at
the end of each loop iteration, after the unit's fetch, not before it.) -/
theorem c2_wait_placement :
    (∀ (cfg : ScraperConfig) (fetch : Int → Int → FetchResult) (cb : Bool)
        (clock : Nat → Int) (rl0 : RLState),
      ScrapeTrace (scrape true cfg fetch cb clock rl0).events)
      ∧ (∀ (cfg : ScraperConfig) (fetch : Int → Int → FetchResult) (cb : Bool)
        (clock : Nat → Int) (rl0 : RLState),
      Ev.wait ∉ ((scrape true cfg fetch cb clock rl0).events.takeWhile
        (fun e => !e.isFetch)))
      ∧ (∀ (cfg : ScraperConfig) (fetch : Int → Int → FetchResult) (cb : Bool)
          (clock : Nat → Int) (rl0 : RLState),
        (∀ y ∈ cfg.years, ∀ m ∈ cfg.months, unitOk fetch y m) →
        (scrape true cfg fetch cb clock rl0).events
          = (cfg.years.enumFrom 0).flatMap (fun q =>
              (cfg.months.enumFrom 0).flatMap
                (unitEvs cb cfg.years.length cfg.months.length q.1 q.2))) := by
  refine ⟨?_, ?_, ?_⟩
  · intro cfg fetch cb clock rl0
    rw [scrape_true_events]
    have hyt := yearsLoop_trace fetch cb clock cfg.years.length cfg.months.length
      cfg.months cfg.years 0 ⟨[], rl0, 0⟩
    cases hr : (yearsLoop fetch cb clock cfg.years.length cfg.months.length cfg.months
        cfg.years 0 ⟨[], rl0, 0⟩).2.2 with
    | none => exact scrapeTrace_of_unitBlocks _ (hyt.1 hr)
    | some e =>
        obtain ⟨doneT, o, y, m, hevs, hub⟩ := hyt.2 e hr
        rw [hevs]
        exact scrapeTrace_of_decomp doneT hub o y m
  · intro cfg fetch cb clock rl0
    rw [scrape_true_events]
    rcases hys : cfg.years with _ | ⟨y, ys⟩
    · simp [yearsLoop]
    · rcases hms : cfg.months with _ | ⟨m, ms⟩
      · rw [(yearsLoop_months_nil fetch cb clock (y :: ys).length
          ([] : List Int).length (y :: ys) 0 ⟨[], rl0, 0⟩).1]
        simp
      · obtain ⟨tail, htail⟩ := yearsLoop_cons_events fetch cb clock (y :: ys).length
          (m :: ms).length y ys m ms 0 ⟨[], rl0, 0⟩
        rw [htail]
        apply wait_not_mem_takeWhile_shape
        intro x hx
        cases cb
        · simp at hx
        · simp at hx
          exact ⟨_, hx⟩
  · intro cfg fetch cb clock rl0 hf
    obtain ⟨rlT, tickT, hrun⟩ := yearsLoop_success fetch cb clock cfg.years.length
      cfg.months.length cfg.months cfg.years 0 ⟨[], rl0, 0⟩ hf
    rw [scrape_true_events, hrun]

/-- Witness for `c2_wait_placement` on the one-unit all-success run. -/
theorem c2_wait_placement_witness :
    (∀ y ∈ cfgEx.years, ∀ m ∈ cfgEx.months, unitOk fetchOkEx y m)
      ∧ (scrape true cfgEx fetchOkEx true clock0 RLState.initial).events
          = (cfgEx.years.enumFrom 0).flatMap (fun q =>
              (cfgEx.months.enumFrom 0).flatMap
                (unitEvs true cfgEx.years.length cfgEx.months.length q.1 q.2)) := by
  have hf : ∀ y ∈ cfgEx.years, ∀ m ∈ cfgEx.months, unitOk fetchOkEx y m := by
    intro y hy m hm
    simp [cfgEx] at hy hm
    subst hy
    subst hm
    exact ⟨days30, rfl, by decide⟩
  exact ⟨hf, c2_wait_placement.2.2 cfgEx fetchOkEx true clock0 RLState.initial hf⟩

/-- C2 fails as stated: in the one-unit run (year 2081, month 1, successful
fetch, no callback) the event log is `[fetch, recSuccess, wait]` — the
first (and only) fetch at position 0 has no `waitForNextRequest` call
before it, because `scrape` only waits at the end of each iteration. -/
theorem c2_counterexample :
    ¬ (∀ (i : Nat) (y m : Int),
        ((scrape true cfgEx fetchOkEx false clock0 RLState.initial).events.get? i
          = some (Ev.fetch y m)) →
        ∃ j, j < i
          ∧ (scrape true cfgEx fetchOkEx false clock0 RLState.initial).events.get? j
              = some Ev.wait) := by
  intro h
  obtain ⟨j, hj, _⟩ := h 0 2081 1 rfl
  exact absurd hj (Nat.not_lt_zero j)

/-! ## C10 -/

/-- C10: calling `scrape` with no page handle (never initialized, or after
`close()` cleared the handles) immediately throws the `NETWORK_ERROR`
"Scraper not initialized. Call initialize() first.", dispatches no fetch,
emits no progress events (the event log is empty) and returns the rate
limiter state unchanged; `close()` on a live browser clears both
handles. -/
theorem c10_uninitialized_scrape :
    (∀ (cfg : ScraperConfig) (fetch : Int → Int → FetchResult) (cb : Bool)
        (clock : Nat → Int) (rl0 : RLState),
      scrape false cfg fetch cb clock rl0
        = ⟨.error ⟨.NETWORK_ERROR, "Scraper not initialized. Call initialize() first."⟩,
            [], rl0⟩)
      ∧ (∀ p : Bool, scraperClose (true, p) = (false, false)) :=
  ⟨fun _ _ _ _ _ => rfl, fun _ => rfl⟩
